import Mathlib

/-!
Verification of the transport layer of jitsi/js-utils.

The development shallowly embeds two source files:

* `src/transport/Transport.ts` — the `Transport` class: a request/response and
  event multiplexer over a pluggable backend.  Its mutable fields become the
  `TransportState` structure; each method becomes a pure function from state
  (plus inputs) to state together with a trace of observable events
  (backend sends, listener invocations, request-promise settlements).
* `src/transport/postis.js` (the Postis channel primitive) — its mutable fields
  become the `PostisState` structure, with operations `send`, `listen`,
  `handleMessage`, `destroy` as pure state transformers producing traces.

JavaScript listeners are modelled as identifiers (`Nat`) whose pure behaviour
is supplied by an environment; payload values are drawn from a type parameter
`α`; `undefined` is `Option.none`.
-/

namespace JsUtils

/-- Message types, from `src/transport/constants.ts` (`MessageType`). -/
inductive MessageType where
  | event
  | request
  | response
deriving DecidableEq, Repr

/-- The transport-level message envelope (`ITransportMessage` in
`src/transport/types.ts`).  Optional / possibly-`undefined` fields are
`Option`s; payload values are drawn from `α`. -/
structure TMessage (α : Type) where
  type : MessageType
  data : Option α := none
  id : Option Nat := none
  result : Option α := none
  error : Option α := none
deriving DecidableEq, Repr

/-- An argument passed to a Transport listener: either a payload value
(possibly `undefined`), or the responder callback that `_onMessageReceived`
creates for an inbound Request carrying the given (possibly `undefined`) id. -/
inductive Arg (α : Type) where
  | val (v : Option α)
  | responder (id : Option Nat)
deriving DecidableEq, Repr

/-- The observable behaviour of one pure listener invocation: whether the call
returns a truthy value, and whether the listener invokes the responder
argument, passing `(result, error)`. -/
structure ListenerResult (α : Type) where
  claimed : Bool
  respond : Option (Option α × Option α) := none
deriving DecidableEq, Repr

/-- An environment assigning pure behaviour to listener identifiers. -/
def Env (α : Type) : Type := Nat → List (Arg α) → ListenerResult α

/-- Errors with which a `sendRequest` promise can be rejected. -/
inductive TErr (α : Type) where
  /-- `new Error('No transport backend defined!')`. -/
  | noBackend
  /-- The `error` field of the Response envelope. -/
  | errVal (e : α)
  /-- `new Error('Unexpected response format!')`. -/
  | unexpectedFormat
  /-- The error thrown synchronously by the backend's `send`. -/
  | thrown (e : α)
deriving DecidableEq, Repr

/-- The message string of the `Error` objects `Transport` constructs. -/
def TErr.message {α : Type} : TErr α → Option String
  | .noBackend => some "No transport backend defined!"
  | .unexpectedFormat => some "Unexpected response format!"
  | _ => none

/-- How a `sendRequest` promise settles. -/
inductive Settle (α : Type) where
  | resolved (v : α)
  | rejected (e : TErr α)
deriving DecidableEq, Repr

/-- Observable events of a Transport run: a message handed to
`backend.send`, a listener invocation, the settlement of the promise of the
request with the given id, and the assignment of a fresh request id. -/
inductive TraceEv (α : Type) where
  | sent (m : TMessage α)
  | invoked (l : Nat) (args : List (Arg α))
  | settled (id : Nat) (s : Settle α)
  | assigned (id : Nat)
deriving DecidableEq, Repr

/-- The mutable state of a `Transport` instance (`src/transport/Transport.ts`):
`_listeners` is a `Map<string, Set<TransportListener>>` (insertion-ordered keys,
insertion-ordered duplicate-free listener collections), `_requestID` the counter,
`_responseHandlers` a `Map<number, handler>` whose every handler is the closure
`sendRequest` registers for its own id — so the map is represented by its key
set, settlement of id `k`'s promise being emitted as `TraceEv.settled k _` —
`_unprocessedMessages` a `Set` of argument arrays (each `emit` adds a fresh
array object, so the set is an insertion-ordered list), and `_backend`. -/
structure TransportState (α : Type) where
  listeners : List (String × List Nat)
  requestID : Nat
  responseHandlers : List Nat
  unprocessedMessages : List (List (Arg α))
  hasBackend : Bool
deriving DecidableEq, Repr

/-- The state of a freshly constructed `Transport` (constructor, lines 52–62). -/
def transportInitial (α : Type) (hasBackend : Bool) : TransportState α :=
  { listeners := []
    requestID := 0
    responseHandlers := []
    unprocessedMessages := []
    hasBackend := hasBackend }

namespace Transport

variable {α : Type}

/-- `Map.get` on the `_listeners` map. -/
def lookupL (ls : List (String × List Nat)) (e : String) : Option (List Nat) :=
  match ls with
  | [] => none
  | (k, s) :: rest => if k = e then some s else lookupL rest e

/-- The listeners currently registered for event `e`, in registration order
(an absent key behaves as the empty collection). -/
def listenersFor (st : TransportState α) (e : String) : List Nat :=
  (lookupL st.listeners e).getD []

/-- `Set.add` on a listener collection: appends unless already present. -/
def addToSet (l : Nat) (s : List Nat) : List Nat :=
  if l ∈ s then s else s ++ [l]

/-- `on`, lines 148–155: fetch or create the listener set for `e`, then add. -/
def addListenerTo (ls : List (String × List Nat)) (e : String) (l : Nat) :
    List (String × List Nat) :=
  match ls with
  | [] => [(e, [l])]
  | (k, s) :: rest =>
    if k = e then (k, addToSet l s) :: rest else (k, s) :: addListenerTo rest e l

/-- The first responder callback among the arguments, if any (a listener that
calls its responder argument calls this one). -/
def firstResponder : List (Arg α) → Option (Option Nat)
  | [] => none
  | .responder k :: _ => some k
  | .val _ :: rest => firstResponder rest

/-- One listener invocation: the listener's truthy/falsy return value together
with the trace it produces — the invocation itself, followed by the Response
envelope `{type: RESPONSE, error, id, result}` that the responder closure of
`_onMessageReceived` (lines 89–96) hands to `backend.send` if the listener
invokes a responder argument. -/
def invokeListener (env : Env α) (l : Nat) (args : List (Arg α)) :
    Bool × List (TraceEv α) :=
  let r := env l args
  let sends : List (TraceEv α) :=
    match r.respond, firstResponder args with
    | some (res, err), some k =>
      [.sent { type := .response, id := k, result := res, error := err }]
    | _, _ => []
  (r.claimed, .invoked l args :: sends)

/-- The `forEach` loop of `emit` (lines 126–130): invoke every listener in
order, OR-ing the returned values into `isProcessed`. -/
def emitInvoke (env : Env α) (args : List (Arg α)) :
    List Nat → Bool × List (TraceEv α)
  | [] => (false, [])
  | l :: rest =>
    let p := invokeListener env l args
    let q := emitInvoke env args rest
    (p.1 || q.1, p.2 ++ q.2)

/-- `emit(eventName, ...args)` (lines 122–137): invoke every listener
registered for `eventName`; if none returned a truthy value, add the argument
array to `_unprocessedMessages`.  Returns (state, isProcessed, trace). -/
def emit (env : Env α) (st : TransportState α) (e : String) (args : List (Arg α)) :
    TransportState α × Bool × List (TraceEv α) :=
  let p := emitInvoke env args (listenersFor st e)
  if p.1 then (st, true, p.2)
  else ({ st with unprocessedMessages := st.unprocessedMessages ++ [args] }, false, p.2)

/-- The `forEach` replay loop of `on` (lines 157–161): pass every backlog
entry to the new listener, deleting the entries for which it returns truthy.
Returns the remaining backlog and the trace. -/
def replayBacklog (env : Env α) (l : Nat) :
    List (List (Arg α)) → List (List (Arg α)) × List (TraceEv α)
  | [] => ([], [])
  | args :: rest =>
    let p := invokeListener env l args
    let q := replayBacklog env l rest
    ((if p.1 then q.1 else args :: q.1), p.2 ++ q.2)

/-- `on(eventName, listener)` (lines 147–164), also exposed under its source
alias `addListener`: add the listener to the (possibly fresh) set for
`eventName`, then replay the whole unprocessed backlog to it, removing the
entries it claims.  (Named after the alias because `on` collides with
notation in the ambient library.) -/
def addListener (env : Env α) (st : TransportState α) (e : String) (l : Nat) :
    TransportState α × List (TraceEv α) :=
  let st1 := { st with listeners := addListenerTo st.listeners e l }
  let p := replayBacklog env l st1.unprocessedMessages
  ({ st1 with unprocessedMessages := p.1 }, p.2)

/-- The body of the response handler a `sendRequest` call registers
(lines 231–241): resolve with `result` if defined, else reject with `error`
if defined, else reject with `Error('Unexpected response format!')`. -/
def settleOf (result error : Option α) : Settle α :=
  match result with
  | some r => .resolved r
  | none =>
    match error with
    | some e => .rejected (.errVal e)
    | none => .rejected .unexpectedFormat

/-- `_onMessageReceived` (lines 80–100): a Response envelope settles (and
removes) the handler registered under its id, if any; a Request envelope is
emitted as the internal `'request'` event with the payload and a responder;
anything else is emitted as the internal `'event'` event. -/
def onMessageReceived (env : Env α) (st : TransportState α) (msg : TMessage α) :
    TransportState α × List (TraceEv α) :=
  match msg.type with
  | .response =>
    match msg.id with
    | some k =>
      if k ∈ st.responseHandlers then
        ({ st with responseHandlers := st.responseHandlers.erase k },
          [.settled k (settleOf msg.result msg.error)])
      else (st, [])
    | none => (st, [])
  | .request =>
    let p := emit env st "request" [.val msg.data, .responder msg.id]
    (p.1, p.2.2)
  | .event =>
    let p := emit env st "event" [.val msg.data]
    (p.1, p.2.2)

/-- The outcome `sendRequest` itself reports for the returned promise. -/
inductive SendReqResult (α : Type) where
  /-- The promise was rejected during the call. -/
  | rejected (e : TErr α)
  /-- The promise is pending; the call registered the handler for `id`. -/
  | pending (id : Nat)
deriving DecidableEq, Repr

/-- `sendRequest(request)` (lines 221–254).  `sendThrows` models the backend's
`send`: `none` when it returns normally, `some e` when it throws `e`.  With no
backend, reject immediately; otherwise increment `_requestID`, register the
response handler under the new id, and send `{type: REQUEST, data, id}`;
if the send throws, delete the handler and reject with the thrown error. -/
def sendRequest (st : TransportState α) (reqData : Option α)
    (sendThrows : Option α) :
    TransportState α × SendReqResult α × List (TraceEv α) :=
  if st.hasBackend then
    let id := st.requestID + 1
    let st1 := { st with requestID := id,
                         responseHandlers := st.responseHandlers ++ [id] }
    match sendThrows with
    | none =>
      (st1, .pending id,
        [.assigned id, .sent { type := .request, data := reqData, id := some id }])
    | some e =>
      ({ st1 with responseHandlers := st1.responseHandlers.erase id },
        .rejected (.thrown e), [.assigned id])
  else
    (st, .rejected .noBackend, [])

/-- `sendEvent(event)` (lines 206–213): send `{type: EVENT, data}` if a
backend is set, else do nothing. -/
def sendEvent (st : TransportState α) (d : Option α) :
    TransportState α × List (TraceEv α) :=
  if st.hasBackend then (st, [.sent { type := .event, data := d }]) else (st, [])

/-- `removeListener(eventName, listener)` (lines 190–198). -/
def removeListener (st : TransportState α) (e : String) (l : Nat) :
    TransportState α :=
  { st with listeners :=
      st.listeners.map fun p => if p.1 = e then (p.1, p.2.erase l) else p }

/-- `removeAllListeners(eventName?)` (lines 172–180). -/
def removeAllListeners (st : TransportState α) (e : Option String) :
    TransportState α :=
  match e with
  | some e => { st with listeners := st.listeners.filter fun p => p.1 ≠ e }
  | none => { st with listeners := [] }

/-- The invocation events of a trace: which listener was called with which
arguments, in order. -/
def invocationsT (tr : List (TraceEv α)) : List (Nat × List (Arg α)) :=
  tr.filterMap fun ev =>
    match ev with
    | .invoked l a => some (l, a)
    | _ => none

/-- The messages a trace hands to `backend.send`, in order. -/
def sentT (tr : List (TraceEv α)) : List (TMessage α) :=
  tr.filterMap fun ev =>
    match ev with
    | .sent m => some m
    | _ => none

/-- The request ids a trace assigns, in order. -/
def assignedT (tr : List (TraceEv α)) : List Nat :=
  tr.filterMap fun ev =>
    match ev with
    | .assigned id => some id
    | _ => none

/-- The request-promise settlements of a trace, in order. -/
def settledT (tr : List (TraceEv α)) : List (Nat × Settle α) :=
  tr.filterMap fun ev =>
    match ev with
    | .settled id s => some (id, s)
    | _ => none

end Transport

namespace Transport

variable {α : Type}

/-- The operations an application (or the backend delivering an inbound
envelope) can perform on one `Transport` instance. `sendReq` carries the
request payload and the behaviour of the backend's `send` for this call
(`none` = returns, `some e` = throws `e`). -/
inductive TOp (α : Type) where
  | sendReq (d : Option α) (sendThrows : Option α)
  | recv (msg : TMessage α)
  | onOp (e : String) (l : Nat)
  | emitOp (e : String) (args : List (Arg α))
  | sendEvt (d : Option α)
  | removeL (e : String) (l : Nat)
  | removeAll (e : Option String)
deriving DecidableEq, Repr

/-- One operation step on a `Transport` instance. -/
def stepT (env : Env α) (st : TransportState α) :
    TOp α → TransportState α × List (TraceEv α)
  | .sendReq d t =>
    let p := sendRequest st d t
    (p.1, p.2.2)
  | .recv msg => onMessageReceived env st msg
  | .onOp e l => addListener env st e l
  | .emitOp e args =>
    let p := emit env st e args
    (p.1, p.2.2)
  | .sendEvt d => sendEvent st d
  | .removeL e l => (removeListener st e l, [])
  | .removeAll e => (removeAllListeners st e, [])

/-- Run a sequence of operations, concatenating the traces. -/
def runT (env : Env α) (st : TransportState α) :
    List (TOp α) → TransportState α × List (TraceEv α)
  | [] => (st, [])
  | op :: rest =>
    let p := stepT env st op
    let q := runT env p.1 rest
    (q.1, p.2 ++ q.2)

/-- The number of `sendReq` operations in a sequence. -/
def countReq (ops : List (TOp α)) : Nat :=
  ops.countP fun op =>
    match op with
    | .sendReq _ _ => true
    | _ => false

end Transport

/-! ### The Postis channel primitive (`src/transport/postis.js`). -/

/-- The parsed wire payload of the channel primitive (`MessageData`):
`{postis, scope, method, params}`.  Per the declared interface the marker
field `postis` is a boolean; `params` may be absent (`undefined`). -/
structure MessageData (α : Type) where
  postis : Bool
  scope : String
  method : String
  params : Option α := none
deriving DecidableEq, Repr

/-- The argument of `Postis.send` (`SendOptions`): `{method, params}`. -/
structure SendOptions (α : Type) where
  method : String
  params : Option α := none
deriving DecidableEq, Repr

/-- The result of `safeJsonParse` on an inbound raw payload: `malformed` when
the parse throws (swallowed by `handleMessage`), otherwise the parsed value —
`none` models a falsy parse result (e.g. the string `"null"`), which the
`data && data.postis` guard also rejects. -/
inductive RawPayload (α : Type) where
  | malformed
  | parsed (data : Option (MessageData α))
deriving DecidableEq, Repr

/-- An inbound `MessageEvent`: the sender's origin and the payload as
`safeJsonParse` sees it. -/
structure PMessageEvent (α : Type) where
  origin : String
  payload : RawPayload α
deriving DecidableEq, Repr

/-- Observable events of a Postis run: a serialized payload handed to
`targetWindow.postMessage`, and a listener invocation with the parsed
`params`. -/
inductive PEv (α : Type) where
  | posted (m : MessageData α)
  | invoked (l : Nat) (params : Option α)
deriving DecidableEq, Repr

/-- The reserved ready-probe method name (`this.readyMethod`). -/
def readyMethod : String := "__ready__"

/-- The mutable state of a `Postis` instance.  Listeners are identifiers with
pure behaviour, except for identifier `0`, reserved for the readiness-check
closure the constructor registers under `readyMethod` (lines 110–125), whose
state effects are part of the model.  `hasTargetWindow` models
`targetWindow && typeof targetWindow.postMessage === "function"`;
`listenerAttached` tracks the `addEventListener`/`removeEventListener` pair;
`intervalActive` tracks the readiness-probe interval timer. -/
structure PostisState (α : Type) where
  scope : String
  allowedOrigin : Option String
  listeners : List (String × List Nat)
  sendBuffer : List (SendOptions α)
  listenBuffer : List (String × List (Option α))
  ready : Bool
  readyCheckID : α
  intervalActive : Bool
  listenerAttached : Bool
  hasTargetWindow : Bool
deriving DecidableEq, Repr

/-- The state right after the `Postis` constructor ran (lines 89–126):
no user listeners yet, only the readiness listener (id `0`) registered under
`readyMethod`; both buffers empty; not ready; probe timer running; message
listener attached. -/
def postisInitial (α : Type) (scope : String) (allowedOrigin : Option String)
    (token : α) (hasTargetWindow : Bool) : PostisState α :=
  { scope := scope
    allowedOrigin := allowedOrigin
    listeners := [(readyMethod, [0])]
    sendBuffer := []
    listenBuffer := []
    ready := false
    readyCheckID := token
    intervalActive := true
    listenerAttached := true
    hasTargetWindow := hasTargetWindow }

namespace Postis

variable {α : Type}

/-- `this.listeners[method]` / `this.listenBuffer[method]`: plain-object
property lookup on a string-keyed record. -/
def lookupRec {β : Type} (r : List (String × β)) (m : String) : Option β :=
  match r with
  | [] => none
  | (k, v) :: rest => if k = m then some v else lookupRec rest m

/-- `send(opts)` (lines 188–202): if ready (or the message is itself a ready
probe) and the target window can receive, serialize
`{postis: true, scope, method, params}` and post it; otherwise push `opts`
onto the send buffer. -/
def send (st : PostisState α) (opts : SendOptions α) :
    PostisState α × List (PEv α) :=
  if (st.ready || opts.method = readyMethod) && st.hasTargetWindow then
    (st, [.posted { postis := true, scope := st.scope, method := opts.method,
                    params := opts.params }])
  else
    ({ st with sendBuffer := st.sendBuffer ++ [opts] }, [])

/-- The flush loop of the readiness listener (lines 115–117): `send` each
buffered message in order.  (The JS loop iterates the live buffer; it is
modelled on its terminating executions — when the target window can receive,
`send` never re-buffers, and the loop is exactly this fold.) -/
def flushSend (st : PostisState α) :
    List (SendOptions α) → PostisState α × List (PEv α)
  | [] => (st, [])
  | o :: rest =>
    let p := send st o
    let q := flushSend p.1 rest
    (q.1, p.2 ++ q.2)

/-- The readiness-check closure registered under `readyMethod` by the
constructor (lines 110–125): on receiving its own probe token, stop the
probe timer, become ready, flush the send buffer in FIFO order and clear it;
on receiving any other token, echo it back as a reply probe. -/
def readyListener [DecidableEq α] (st : PostisState α) (params : Option α) :
    PostisState α × List (PEv α) :=
  if params = some st.readyCheckID then
    let st1 := { st with intervalActive := false, ready := true }
    let p := flushSend st1 st1.sendBuffer
    ({ p.1 with sendBuffer := [] }, p.2)
  else
    send st { method := readyMethod, params := params }

/-- Invoke one listener with the parsed `params`: identifier `0` is the
readiness-check closure (with its state effects); every other identifier is a
pure observer. -/
def applyListener [DecidableEq α] (st : PostisState α) (l : Nat)
    (params : Option α) : PostisState α × List (PEv α) :=
  if l = 0 then
    let p := readyListener st params
    (p.1, .invoked l params :: p.2)
  else
    (st, [.invoked l params])

/-- The dispatch loop of `handleMessage` (lines 149–151): call every listener
registered for the method, in registration order, with the parsed `params`. -/
def dispatchAll [DecidableEq α] (params : Option α) (st : PostisState α) :
    List Nat → PostisState α × List (PEv α)
  | [] => (st, [])
  | l :: rest =>
    let p := applyListener st l params
    let q := dispatchAll params p.1 rest
    (q.1, p.2 ++ q.2)

/-- `this.listenBuffer[method] = this.listenBuffer[method] || []; …push(params)`
(lines 153–154). -/
def bufferAdd (buf : List (String × List (Option α))) (m : String)
    (params : Option α) : List (String × List (Option α)) :=
  match buf with
  | [] => [(m, [params])]
  | (k, ps) :: rest =>
    if k = m then (k, ps ++ [params]) :: rest else (k, ps) :: bufferAdd rest m params

/-- Lines 146–156 of `handleMessage`: the
`data && data.postis && data.scope === this.scope` guard and the
dispatch-or-buffer body. -/
def handleData [DecidableEq α] (st : PostisState α) :
    Option (MessageData α) → PostisState α × List (PEv α)
  | none => (st, [])
  | some d =>
    if d.postis && d.scope = st.scope then
      match lookupRec st.listeners d.method with
      | some ls => dispatchAll d.params st ls
      | none =>
        ({ st with listenBuffer := bufferAdd st.listenBuffer d.method d.params }, [])
    else (st, [])

/-- `handleMessage(event)` (lines 134–157): swallow parse failures; drop the
message when the origin allow-list is set and does not match; drop unless the
parsed data is truthy with a truthy `postis` marker and a matching `scope`;
then dispatch to the method's listeners if any are registered, else buffer
`params` under the method. -/
def handleMessage [DecidableEq α] (st : PostisState α) (ev : PMessageEvent α) :
    PostisState α × List (PEv α) :=
  match ev.payload with
  | .malformed => (st, [])
  | .parsed dataOpt =>
    match st.allowedOrigin with
    | some ao =>
      if ev.origin ≠ ao then (st, []) else handleData st dataOpt
    | none => handleData st dataOpt

/-- `this.listeners[method] = this.listeners[method] || []; …push(callback)`. -/
def listenersAdd (ls : List (String × List Nat)) (m : String) (l : Nat) :
    List (String × List Nat) :=
  match ls with
  | [] => [(m, [l])]
  | (k, s) :: rest =>
    if k = m then (k, s ++ [l]) :: rest else (k, s) :: listenersAdd rest m l

/-- `delete this.listenBuffer[method]` (line 179). -/
def bufferDelete (buf : List (String × List (Option α))) (m : String) :
    List (String × List (Option α)) :=
  buf.filter fun p => p.1 ≠ m

/-- The inner replay loop of `listen` (lines 174–176): one listener called
with every buffered payload in arrival order. -/
def replayToOne [DecidableEq α] (l : Nat) (st : PostisState α) :
    List (Option α) → PostisState α × List (PEv α)
  | [] => (st, [])
  | x :: xs =>
    let p := applyListener st l x
    let q := replayToOne l p.1 xs
    (q.1, p.2 ++ q.2)

/-- The outer replay loop of `listen` (lines 170–178): every listener now
registered for the method is called with every buffered payload, outer loop
over listeners, inner loop over the buffered payloads in arrival order. -/
def replayNested [DecidableEq α] (buf : List (Option α)) (st : PostisState α) :
    List Nat → PostisState α × List (PEv α)
  | [] => (st, [])
  | l :: rest =>
    let p := replayToOne l st buf
    let q := replayNested buf p.1 rest
    (q.1, p.2 ++ q.2)

/-- `listen(method, callback)` (lines 166–180): append the callback to the
method's listener array, replay any buffered payloads for that method to all
of its listeners, then delete that method's buffer entry. -/
def listen [DecidableEq α] (st : PostisState α) (m : String) (l : Nat) :
    PostisState α × List (PEv α) :=
  let st1 := { st with listeners := listenersAdd st.listeners m l }
  let p :=
    match lookupRec st1.listenBuffer m with
    | some buf => replayNested buf st1 (lookupRec st1.listeners m |>.getD [])
    | none => (st1, ([] : List (PEv α)))
  ({ p.1 with listenBuffer := bufferDelete p.1.listenBuffer m }, p.2)

/-- `destroy(callback)` (lines 224–231): stop the probe timer, reset `_ready`
to `false`, and detach the message listener. -/
def destroy (st : PostisState α) : PostisState α :=
  { st with intervalActive := false, ready := false, listenerAttached := false }

/-- The operations an application (or the window message queue) can perform on
one Postis instance.  `recv` is the environment delivering a raw message
event; `readyOp` (`ready(callback)`) only reads the flag and is state-free, so
it is omitted. -/
inductive POp (α : Type) where
  | sendOp (opts : SendOptions α)
  | listenOp (m : String) (l : Nat)
  | recv (ev : PMessageEvent α)
  | destroyOp
deriving DecidableEq, Repr

/-- One operation step.  A delivered window message reaches `handleMessage`
only while the message listener is attached. -/
def stepP [DecidableEq α] (st : PostisState α) : POp α → PostisState α × List (PEv α)
  | .sendOp opts => send st opts
  | .listenOp m l => listen st m l
  | .recv ev => if st.listenerAttached then handleMessage st ev else (st, [])
  | .destroyOp => (destroy st, [])

/-- Run a sequence of operations, concatenating the traces. -/
def runP [DecidableEq α] (st : PostisState α) : List (POp α) → PostisState α × List (PEv α)
  | [] => (st, [])
  | op :: rest =>
    let p := stepP st op
    let q := runP p.1 rest
    (q.1, p.2 ++ q.2)

/-- The invocation events of a Postis trace. -/
def invocationsP (tr : List (PEv α)) : List (Nat × Option α) :=
  tr.filterMap fun ev =>
    match ev with
    | .invoked l p => some (l, p)
    | _ => none

/-- The posted payloads of a Postis trace, in order. -/
def postedP (tr : List (PEv α)) : List (MessageData α) :=
  tr.filterMap fun ev =>
    match ev with
    | .posted m => some m
    | _ => none

end Postis

/-! ### Lemmas about the Transport listener machinery. -/

namespace Transport

variable {α : Type}

theorem invocationsT_append (tr1 tr2 : List (TraceEv α)) :
    invocationsT (tr1 ++ tr2) = invocationsT tr1 ++ invocationsT tr2 :=
  List.filterMap_append ..

theorem sentT_append (tr1 tr2 : List (TraceEv α)) :
    sentT (tr1 ++ tr2) = sentT tr1 ++ sentT tr2 :=
  List.filterMap_append ..

theorem assignedT_append (tr1 tr2 : List (TraceEv α)) :
    assignedT (tr1 ++ tr2) = assignedT tr1 ++ assignedT tr2 :=
  List.filterMap_append ..

theorem invocationsT_invokeListener (env : Env α) (l : Nat) (args : List (Arg α)) :
    invocationsT (invokeListener env l args).2 = [(l, args)] := by
  unfold invokeListener
  cases hr : (env l args).respond with
  | none => simp [invocationsT, hr]
  | some p =>
    obtain ⟨res, err⟩ := p
    cases hf : firstResponder args with
    | none => simp [invocationsT, hr, hf]
    | some k => simp [invocationsT, hr, hf]

theorem fst_invokeListener (env : Env α) (l : Nat) (args : List (Arg α)) :
    (invokeListener env l args).1 = (env l args).claimed := by
  unfold invokeListener
  simp

theorem emitInvoke_spec (env : Env α) (args : List (Arg α)) (ls : List Nat) :
    (emitInvoke env args ls).1 = ls.any (fun l => (env l args).claimed) ∧
      invocationsT (emitInvoke env args ls).2 = ls.map (fun l => (l, args)) := by
  induction ls with
  | nil => simp [emitInvoke, invocationsT]
  | cons l rest ih =>
    simp only [emitInvoke, invocationsT_append, ih.2, invocationsT_invokeListener,
      fst_invokeListener, List.any_cons, List.map_cons, ih.1]
    constructor <;> trivial

theorem replayBacklog_spec (env : Env α) (l : Nat) (b : List (List (Arg α))) :
    (replayBacklog env l b).1 = b.filter (fun a => !(env l a).claimed) ∧
      invocationsT (replayBacklog env l b).2 = b.map (fun a => (l, a)) := by
  induction b with
  | nil => simp [replayBacklog, invocationsT]
  | cons a rest ih =>
    simp only [replayBacklog, invocationsT_append, ih.2, invocationsT_invokeListener,
      fst_invokeListener, List.filter_cons, List.map_cons, ih.1]
    constructor
    · cases h : (env l a).claimed <;> simp [h]
    · rfl

/-- Characterizing equation for `emit`. -/
theorem emit_eq (env : Env α) (st : TransportState α) (e : String)
    (args : List (Arg α)) :
    emit env st e args =
      ((if (listenersFor st e).any (fun l => (env l args).claimed) then st
        else { st with unprocessedMessages := st.unprocessedMessages ++ [args] }),
        (listenersFor st e).any (fun l => (env l args).claimed),
        (emitInvoke env args (listenersFor st e)).2) := by
  have h1 := (emitInvoke_spec env args (listenersFor st e)).1
  cases h : (listenersFor st e).any (fun l => (env l args).claimed) <;>
    rw [h] at h1 <;> simp [emit, h1, h]

/-- Characterizing equation for `addListener` (the source's `on`). -/
theorem addListener_eq (env : Env α) (st : TransportState α) (e : String)
    (l : Nat) :
    addListener env st e l =
      ({ st with listeners := addListenerTo st.listeners e l,
                 unprocessedMessages :=
                   st.unprocessedMessages.filter (fun a => !(env l a).claimed) },
        (replayBacklog env l st.unprocessedMessages).2) := by
  simp only [addListener]
  rw [(replayBacklog_spec env l st.unprocessedMessages).1]

/-- C7.  `emit(eventName, ...args)` invokes every listener currently
registered for `eventName`, in registration order, with `args`; it returns
`true` exactly when at least one listener returned a truthy value; when it
returns `true` the state (in particular the backlog) is unchanged, and when
zero listeners exist or all return falsy the full argument list is appended
to the unprocessed backlog. -/
theorem emit_dispatch_and_backlog_spec (α : Type) (env : Env α)
    (st : TransportState α) (e : String) (args : List (Arg α)) :
    invocationsT (emit env st e args).2.2 =
        (listenersFor st e).map (fun l => (l, args)) ∧
      ((emit env st e args).2.1 = true ↔
        ∃ l ∈ listenersFor st e, (env l args).claimed = true) ∧
      (emit env st e args).1 =
        (if (emit env st e args).2.1 = true then st
         else { st with unprocessedMessages := st.unprocessedMessages ++ [args] }) := by
  rw [emit_eq]
  refine ⟨(emitInvoke_spec env args (listenersFor st e)).2, ?_, ?_⟩
  · simp [List.any_eq_true]
  · cases h : (listenersFor st e).any (fun l => (env l args).claimed) <;> simp [h]

/-- C6.  `on(eventName, listener)` (embedded as `addListener`) replays every
entry of the unprocessed backlog to the new listener — the backlog carries no
event names at all, so replay is independent of the event name each entry was
originally emitted under; an entry is removed exactly when the listener
returns a truthy value for it; and a removed entry is never replayed to any
listener registered afterward. -/
theorem addListener_replays_and_claims_backlog (α : Type) (env : Env α)
    (st : TransportState α) (e : String) (l : Nat) :
    invocationsT (addListener env st e l).2 =
        st.unprocessedMessages.map (fun a => (l, a)) ∧
      (addListener env st e l).1.unprocessedMessages =
        st.unprocessedMessages.filter (fun a => !(env l a).claimed) ∧
      (∀ a ∈ st.unprocessedMessages, (env l a).claimed = true →
        ∀ e2 l2,
          (l2, a) ∉ invocationsT (addListener env (addListener env st e l).1 e2 l2).2) := by
  refine ⟨?_, ?_, ?_⟩
  · rw [addListener_eq]
    exact (replayBacklog_spec env l st.unprocessedMessages).2
  · rw [addListener_eq]
  · intro a _ hcl e2 l2 hmem
    rw [addListener_eq env (addListener env st e l).1 e2 l2] at hmem
    simp only at hmem
    rw [(replayBacklog_spec env l2 (addListener env st e l).1.unprocessedMessages).2]
      at hmem
    obtain ⟨x, hx, hxa⟩ := List.mem_map.mp hmem
    have hxa2 : x = a := by simpa using hxa
    subst hxa2
    rw [addListener_eq] at hx
    simp only at hx
    have hfalse := (List.mem_filter.mp hx).2
    rw [hcl] at hfalse
    simp at hfalse

theorem lookupL_addListenerTo (ls : List (String × List Nat)) (e : String)
    (l : Nat) :
    lookupL (addListenerTo ls e l) e = some (addToSet l ((lookupL ls e).getD [])) := by
  induction ls with
  | nil => simp [addListenerTo, lookupL, addToSet]
  | cons p rest ih =>
    obtain ⟨k, s⟩ := p
    by_cases h : k = e
    · subst h
      simp [addListenerTo, lookupL]
    · simp [addListenerTo, lookupL, h, ih]

theorem listenersFor_addListener (env : Env α) (st : TransportState α)
    (e : String) (l : Nat) :
    listenersFor (addListener env st e l).1 e = addToSet l (listenersFor st e) := by
  rw [addListener_eq]
  simp only [listenersFor]
  rw [lookupL_addListenerTo]
  rfl

/-- C10.  Registering the same listener function twice for the same event is
idempotent with respect to dispatch: `_listeners` stores `Set`s, so after
`on(e, f); on(e, f)` the listener `f` is stored exactly once for `e` and a
subsequent `emit(e, ...args)` invokes `f` exactly once. -/
theorem addListener_twice_dispatches_once (α : Type)
    (env : Env α) (st : TransportState α) (e : String) (f : Nat)
    (args : List (Arg α)) (h : f ∉ listenersFor st e) :
    listenersFor (addListener env (addListener env st e f).1 e f).1 e =
        listenersFor (addListener env st e f).1 e ∧
      (listenersFor (addListener env (addListener env st e f).1 e f).1 e).count f = 1 ∧
      (invocationsT
          (emit env (addListener env (addListener env st e f).1 e f).1 e args).2.2).countP
        (fun p => p.1 == f) = 1 := by
  have h1 : listenersFor (addListener env st e f).1 e = listenersFor st e ++ [f] := by
    rw [listenersFor_addListener]
    simp [addToSet, h]
  have hmem : f ∈ listenersFor (addListener env st e f).1 e := by
    rw [h1]
    simp
  have h2 : listenersFor (addListener env (addListener env st e f).1 e f).1 e =
      listenersFor (addListener env st e f).1 e := by
    rw [listenersFor_addListener]
    simp [addToSet, hmem]
  refine ⟨h2, ?_, ?_⟩
  · rw [h2, h1]
    simp [List.count_append, List.count_eq_zero.mpr h]
  · rw [(emit_dispatch_and_backlog_spec α env _ e args).1, h2, h1,
      List.countP_map, List.countP_append]
    have hz : List.countP ((fun p => p.1 == f) ∘ fun l => (l, args))
        (listenersFor st e) = 0 := by
      rw [List.countP_eq_zero]
      intro a ha
      simp only [Function.comp, beq_iff_eq, decide_eq_true_eq]
      intro hfa
      exact h (hfa ▸ ha)
    rw [hz]
    simp [Function.comp]

/-- C1.  With no backend set, `sendRequest` returns an immediately rejected
promise carrying `Error('No transport backend defined!')` and leaves the whole
state — in particular the pending-request table — unmodified.  With a backend,
the promise is pending under the freshly assigned id, and an inbound Response
envelope with that id settles it: resolved with exactly `R` when `result` is
defined, rejected with exactly `E` when only `error` is defined, rejected with
`Error('Unexpected response format!')` when neither is defined. -/
theorem sendRequest_settlement_spec (α : Type) (env : Env α)
    (st : TransportState α) (d : Option α) (R E : α) :
    (st.hasBackend = false →
      ∀ t, sendRequest st d t = (st, .rejected .noBackend, [])) ∧
    (TErr.noBackend : TErr α).message = some "No transport backend defined!" ∧
    (TErr.unexpectedFormat : TErr α).message = some "Unexpected response format!" ∧
    (st.hasBackend = true →
      (sendRequest st d none).2.1 = .pending (st.requestID + 1) ∧
      (∀ err : Option α,
        (onMessageReceived env (sendRequest st d none).1
            { type := .response, id := some (st.requestID + 1),
              result := some R, error := err }).2 =
          [.settled (st.requestID + 1) (.resolved R)]) ∧
      (onMessageReceived env (sendRequest st d none).1
          { type := .response, id := some (st.requestID + 1),
            result := none, error := some E }).2 =
        [.settled (st.requestID + 1) (.rejected (.errVal E))] ∧
      (onMessageReceived env (sendRequest st d none).1
          { type := .response, id := some (st.requestID + 1),
            result := none, error := none }).2 =
        [.settled (st.requestID + 1) (.rejected .unexpectedFormat)]) := by
  refine ⟨?_, rfl, rfl, ?_⟩
  · intro hb t
    simp [sendRequest, hb]
  · intro hb
    have hsr : sendRequest st d none =
        ({ st with requestID := st.requestID + 1,
                   responseHandlers := st.responseHandlers ++ [st.requestID + 1] },
          .pending (st.requestID + 1),
          [.assigned (st.requestID + 1),
            .sent { type := .request, data := d, id := some (st.requestID + 1) }]) := by
      simp [sendRequest, hb]
    have hm : st.requestID + 1 ∈ st.responseHandlers ++ [st.requestID + 1] := by
      simp
    refine ⟨by rw [hsr], ?_, ?_, ?_⟩ <;>
      first
        | (intro err
           rw [hsr]
           simp [onMessageReceived, hm, settleOf])
        | (rw [hsr]
           simp [onMessageReceived, hm, settleOf])

/-- C8.  When the backend's synchronous `send` throws, `sendRequest` removes
the handler it registered for the new id — restoring the pending-request table
to its prior contents (under the instance invariant that every pending id is
at most the current counter value) — and the promise rejects with exactly the
thrown error.  The id counter keeps its incremented value. -/
theorem sendRequest_throw_rolls_back (α : Type) (st : TransportState α)
    (d : Option α) (e : α) (hb : st.hasBackend = true)
    (hinv : ∀ k ∈ st.responseHandlers, k ≤ st.requestID) :
    sendRequest st d (some e) =
      ({ st with requestID := st.requestID + 1 },
        .rejected (.thrown e), [.assigned (st.requestID + 1)]) := by
  have hnot : st.requestID + 1 ∉ st.responseHandlers := by
    intro hmem
    exact absurd (hinv _ hmem) (by omega)
  simp [sendRequest, hb, List.erase_append_right _ hnot]

theorem assignedT_invokeListener (env : Env α) (l : Nat) (args : List (Arg α)) :
    assignedT (invokeListener env l args).2 = [] := by
  unfold invokeListener
  cases hr : (env l args).respond with
  | none => simp [assignedT, hr]
  | some p =>
    obtain ⟨res, err⟩ := p
    cases hf : firstResponder args with
    | none => simp [assignedT, hr, hf]
    | some k => simp [assignedT, hr, hf]

theorem assignedT_emitInvoke (env : Env α) (args : List (Arg α)) (ls : List Nat) :
    assignedT (emitInvoke env args ls).2 = [] := by
  induction ls with
  | nil => simp [emitInvoke, assignedT]
  | cons l rest ih =>
    simp only [emitInvoke, assignedT_append, assignedT_invokeListener, ih]
    rfl

theorem assignedT_replayBacklog (env : Env α) (l : Nat) (b : List (List (Arg α))) :
    assignedT (replayBacklog env l b).2 = [] := by
  induction b with
  | nil => simp [replayBacklog, assignedT]
  | cons a rest ih =>
    simp only [replayBacklog, assignedT_append, assignedT_invokeListener, ih]
    rfl

/-- `emit` leaves every field except the backlog unchanged. -/
theorem emit_fst_fields (env : Env α) (st : TransportState α) (e : String)
    (args : List (Arg α)) :
    (emit env st e args).1.requestID = st.requestID ∧
      (emit env st e args).1.hasBackend = st.hasBackend ∧
      (emit env st e args).1.responseHandlers = st.responseHandlers ∧
      (emit env st e args).1.listeners = st.listeners := by
  rw [emit_eq]
  split <;> simp

theorem onMessageReceived_fst_fields (env : Env α) (st : TransportState α)
    (msg : TMessage α) :
    (onMessageReceived env st msg).1.requestID = st.requestID ∧
      (onMessageReceived env st msg).1.hasBackend = st.hasBackend := by
  unfold onMessageReceived
  cases msg.type with
  | response =>
    cases msg.id with
    | none => simp
    | some k =>
      by_cases hk : k ∈ st.responseHandlers <;> simp [hk]
  | request =>
    exact ⟨(emit_fst_fields env st "request" _).1, (emit_fst_fields env st "request" _).2.1⟩
  | event =>
    exact ⟨(emit_fst_fields env st "event" _).1, (emit_fst_fields env st "event" _).2.1⟩

theorem assignedT_onMessageReceived (env : Env α) (st : TransportState α)
    (msg : TMessage α) :
    assignedT (onMessageReceived env st msg).2 = [] := by
  unfold onMessageReceived
  cases msg.type with
  | response =>
    cases msg.id with
    | none => simp [assignedT]
    | some k =>
      by_cases hk : k ∈ st.responseHandlers <;> simp [hk, assignedT]
  | request =>
    rw [show (emit env st "request" [.val msg.data, .responder msg.id], ()).1.2.2 =
        (emit env st "request" [.val msg.data, .responder msg.id]).2.2 from rfl]
    rw [emit_eq]
    exact assignedT_emitInvoke ..
  | event =>
    rw [show (emit env st "event" [.val msg.data], ()).1.2.2 =
        (emit env st "event" [.val msg.data]).2.2 from rfl]
    rw [emit_eq]
    exact assignedT_emitInvoke ..

/-- `stepT` never changes whether a backend is set (none of the modelled
operations swap the backend). -/
theorem stepT_hasBackend (env : Env α) (st : TransportState α) (op : TOp α) :
    (stepT env st op).1.hasBackend = st.hasBackend := by
  cases op with
  | sendReq d t =>
    by_cases hb : st.hasBackend <;> cases t <;> simp [stepT, sendRequest, hb]
  | recv msg => exact (onMessageReceived_fst_fields env st msg).2
  | onOp e l => rw [stepT, addListener_eq]
  | emitOp e args => exact (emit_fst_fields env st e args).2.1
  | sendEvt d => by_cases hb : st.hasBackend <;> simp [stepT, sendEvent, hb]
  | removeL e l => simp [stepT, removeListener]
  | removeAll e => cases e <;> simp [stepT, removeAllListeners]

/-- A `sendReq` step with a backend assigns exactly the next id. -/
theorem stepT_sendReq (env : Env α) (st : TransportState α) (d t : Option α)
    (hb : st.hasBackend = true) :
    (stepT env st (.sendReq d t)).1.requestID = st.requestID + 1 ∧
      assignedT (stepT env st (.sendReq d t)).2 = [st.requestID + 1] := by
  cases t <;> simp [stepT, sendRequest, hb, assignedT]

/-- Every step other than `sendReq` leaves the id counter unchanged and
assigns no id. -/
theorem stepT_other (env : Env α) (st : TransportState α) (op : TOp α)
    (hop : ∀ d t, op ≠ .sendReq d t) :
    (stepT env st op).1.requestID = st.requestID ∧
      assignedT (stepT env st op).2 = [] := by
  cases op with
  | sendReq d t => exact absurd rfl (hop d t)
  | recv msg =>
    exact ⟨(onMessageReceived_fst_fields env st msg).1,
      assignedT_onMessageReceived env st msg⟩
  | onOp e l =>
    rw [stepT, addListener_eq]
    exact ⟨rfl, assignedT_replayBacklog ..⟩
  | emitOp e args =>
    refine ⟨(emit_fst_fields env st e args).1, ?_⟩
    rw [show stepT env st (.emitOp e args) = ((emit env st e args).1, (emit env st e args).2.2) from rfl]
    rw [emit_eq]
    exact assignedT_emitInvoke ..
  | sendEvt d => by_cases hb : st.hasBackend <;> simp [stepT, sendEvent, hb, assignedT]
  | removeL e l => simp [stepT, removeListener, assignedT]
  | removeAll e => cases e <;> simp [stepT, removeAllListeners, assignedT]

/-- Along any run with a backend, the ids assigned by the `sendRequest` calls
are exactly the consecutive integers following the current counter value. -/
theorem runT_assignedIds (env : Env α) (ops : List (TOp α)) :
    ∀ st : TransportState α, st.hasBackend = true →
      assignedT (runT env st ops).2 = List.range' (st.requestID + 1) (countReq ops) := by
  induction ops with
  | nil =>
    intro st hb
    simp [runT, assignedT, countReq]
  | cons op rest ih =>
    intro st hb
    have hb1 : (stepT env st op).1.hasBackend = true := by
      rw [stepT_hasBackend]
      exact hb
    by_cases hreq : ∃ d t, op = TOp.sendReq d t
    · obtain ⟨d, t, rfl⟩ := hreq
      obtain ⟨hid, has⟩ := stepT_sendReq env st d t hb
      have hcount : countReq (TOp.sendReq d t :: rest) = countReq rest + 1 := by
        simp [countReq]
      simp only [runT, assignedT_append, has, ih _ hb1, hid, hcount]
      simp [List.range'_succ]
    · push_neg at hreq
      obtain ⟨hid, has⟩ := stepT_other env st op hreq
      have hcount : countReq (op :: rest) = countReq rest := by
        cases op <;> first | exact absurd rfl (hreq _ _) | simp [countReq]
      simp only [runT, assignedT_append, has, ih _ hb1, hid, hcount,
        List.nil_append]

/-- C2.  From a freshly constructed `Transport` with a backend, any sequence
of operations assigns request ids `1, 2, …, n` (one per `sendRequest` call):
strictly increasing, starting at `1`, unique over the instance's lifetime.
And an inbound Response envelope with id `k` invokes exactly the handler
registered under `k` — settling the promise of request `k` and removing the
entry — while an id with no registered handler settles nothing, so responses
arriving out of order settle the matching promise each time. -/
theorem requestIds_increasing_and_matched_dispatch (α : Type) (env : Env α) :
    (∀ ops : List (TOp α),
      assignedT (runT env (transportInitial α true) ops).2 =
          List.range' 1 (countReq ops) ∧
        (assignedT (runT env (transportInitial α true) ops).2).Pairwise (· < ·) ∧
        (assignedT (runT env (transportInitial α true) ops).2).Nodup) ∧
    (∀ (st : TransportState α) (k : Nat) (d res err : Option α),
      (k ∈ st.responseHandlers →
        onMessageReceived env st
            { type := .response, data := d, id := some k, result := res, error := err } =
          ({ st with responseHandlers := st.responseHandlers.erase k },
            [.settled k (settleOf res err)])) ∧
      (k ∉ st.responseHandlers →
        onMessageReceived env st
            { type := .response, data := d, id := some k, result := res, error := err } =
          (st, []))) := by
  constructor
  · intro ops
    have h := runT_assignedIds env ops (transportInitial α true) rfl
    rw [show (transportInitial α true).requestID = 0 from rfl] at h
    rw [h]
    exact ⟨rfl, List.pairwise_lt_range' .., List.nodup_range' ..⟩
  · intro st k d res err
    constructor
    · intro hk
      simp [onMessageReceived, hk]
    · intro hk
      simp [onMessageReceived, hk]

theorem replayBacklog_trace_mem (env : Env α) (l : Nat)
    (b : List (List (Arg α))) (a : List (Arg α)) (ha : a ∈ b) :
    ∀ ev ∈ (invokeListener env l a).2, ev ∈ (replayBacklog env l b).2 := by
  induction b with
  | nil => cases ha
  | cons x rest ih =>
    intro ev hev
    rcases List.mem_cons.mp ha with h | h
    · subst h
      simp only [replayBacklog]
      exact List.mem_append_left _ hev
    · simp only [replayBacklog]
      exact List.mem_append_right _ (ih h ev hev)

theorem invokeListener_sends (env : Env α) (l : Nat) (args : List (Arg α))
    (res err : Option α) (k : Option Nat)
    (hr : (env l args).respond = some (res, err))
    (hf : firstResponder args = some k) :
    TraceEv.sent { type := .response, id := k, result := res, error := err } ∈
      (invokeListener env l args).2 := by
  unfold invokeListener
  simp [hr, hf]

/-- C4 (amended).  A Request envelope arriving while no listener at all is
registered for the internal `'request'` event elicits no backend send (in
particular no Response envelope) at receipt time; but it is not dropped: its
payload and responder are appended to the unprocessed backlog, every listener
registered afterwards receives them on replay, and a replayed listener that
invokes the responder sends a Response envelope carrying the original
request's id. -/
theorem unhandled_request_backlogged_and_replayable (α : Type) (env : Env α)
    (st : TransportState α) (d : Option α) (k : Option Nat)
    (h : listenersFor st "request" = []) :
    onMessageReceived env st { type := .request, data := d, id := k } =
        ({ st with unprocessedMessages :=
            st.unprocessedMessages ++ [[Arg.val d, Arg.responder k]] }, []) ∧
      (∀ (e2 : String) (l2 : Nat),
        (l2, [Arg.val d, Arg.responder k]) ∈
          invocationsT (addListener env
            (onMessageReceived env st { type := .request, data := d, id := k }).1
            e2 l2).2) ∧
      (∀ (e2 : String) (l2 : Nat) (res err : Option α),
        (env l2 [Arg.val d, Arg.responder k]).respond = some (res, err) →
          TraceEv.sent { type := .response, id := k, result := res, error := err } ∈
            (addListener env
              (onMessageReceived env st { type := .request, data := d, id := k }).1
              e2 l2).2) := by
  have hemit := emit_eq env st "request" [Arg.val d, Arg.responder k]
  rw [h] at hemit
  simp only [List.any_nil, emitInvoke, Bool.false_eq_true, if_false] at hemit
  have hrecv : onMessageReceived env st { type := .request, data := d, id := k } =
      ({ st with unprocessedMessages :=
          st.unprocessedMessages ++ [[Arg.val d, Arg.responder k]] }, []) := by
    simp [onMessageReceived, hemit]
  refine ⟨hrecv, ?_, ?_⟩
  · intro e2 l2
    rw [hrecv, addListener_eq]
    simp only
    rw [(replayBacklog_spec env l2 _).2]
    exact List.mem_map.mpr ⟨_, by simp, rfl⟩
  · intro e2 l2 res err hres
    rw [hrecv, addListener_eq]
    simp only
    exact replayBacklog_trace_mem env l2 _ _ (by simp) _
      (invokeListener_sends env l2 _ res err k hres (by simp [firstResponder]))

/-- Counterexample to C4 as stated: on a fresh Transport with a backend, a
Request envelope (id 7, payload 5) arrives with zero listeners — no Response
is sent at receipt — but after `on('request', f)` registers a listener that
claims the replayed backlog entry and invokes its responder with result 42,
a Response envelope with the original id 7 IS handed to `backend.send`.  So
a request with no registered handler is not "dropped without ever eliciting a
response … including after further listeners are registered". -/
theorem request_without_handler_later_answered :
    sentT (onMessageReceived
        (fun l _ => if l = 1 then ⟨true, some (some 42, none)⟩ else ⟨false, none⟩ : Env Nat)
        (transportInitial Nat true)
        { type := .request, data := some 5, id := some 7 }).2 = [] ∧
      TraceEv.sent { type := .response, id := some 7, result := some 42, error := none } ∈
        (addListener
          (fun l _ => if l = 1 then ⟨true, some (some 42, none)⟩ else ⟨false, none⟩ : Env Nat)
          (onMessageReceived
            (fun l _ => if l = 1 then ⟨true, some (some 42, none)⟩ else ⟨false, none⟩ : Env Nat)
            (transportInitial Nat true)
            { type := .request, data := some 5, id := some 7 }).1
          "request" 1).2 := by
  constructor
  · rfl
  · decide

/-- Witness for C1: on a fresh Transport with a backend, the first request's
promise (id 1) resolves with exactly 9 when `{id: 1, result: 9}` arrives. -/
theorem sendRequest_settlement_spec_witness :
    (onMessageReceived (fun _ _ => ⟨false, none⟩ : Env Nat)
        (sendRequest (transportInitial Nat true) (some 3) none).1
        { type := .response, id := some 1, result := some 9, error := none }).2 =
      [.settled 1 (.resolved 9)] :=
  ((sendRequest_settlement_spec Nat (fun _ _ => ⟨false, none⟩)
    (transportInitial Nat true) (some 3) 9 0).2.2.2 rfl).2.1 none

/-- Witness for C2: two `sendRequest` calls on a fresh Transport get ids
`[1, 2]`, and with both pending, the response for id 2 settles exactly
request 2. -/
theorem requestIds_increasing_witness :
    assignedT (runT (fun _ _ => ⟨false, none⟩ : Env Nat)
          (transportInitial Nat true)
          [TOp.sendReq none none, TOp.sendReq none none]).2 = List.range' 1 2 ∧
      onMessageReceived (fun _ _ => ⟨false, none⟩ : Env Nat)
          { listeners := [], requestID := 2, responseHandlers := [1, 2],
            unprocessedMessages := [], hasBackend := true }
          { type := .response, data := none, id := some 2, result := some 7,
            error := none } =
        ({ listeners := [], requestID := 2, responseHandlers := [1],
           unprocessedMessages := [], hasBackend := true },
          [.settled 2 (.resolved 7)]) :=
  ⟨((requestIds_increasing_and_matched_dispatch Nat (fun _ _ => ⟨false, none⟩)).1
      [TOp.sendReq none none, TOp.sendReq none none]).1,
    ((requestIds_increasing_and_matched_dispatch Nat (fun _ _ => ⟨false, none⟩)).2
      { listeners := [], requestID := 2, responseHandlers := [1, 2],
        unprocessedMessages := [], hasBackend := true }
      2 none (some 7) none).1 (by decide)⟩

/-- Witness for C6: a backlog entry claimed by the first added listener is not
replayed to a listener added afterwards. -/
theorem addListener_replays_witness :
    ((1 : Nat), [Arg.val (some (5 : Nat))]) ∉
      invocationsT (addListener (fun l _ => ⟨l == 0, none⟩ : Env Nat)
        (addListener (fun l _ => ⟨l == 0, none⟩ : Env Nat)
          { listeners := [], requestID := 0, responseHandlers := [],
            unprocessedMessages := [[Arg.val (some 5)]], hasBackend := true }
          "x" 0).1
        "y" 1).2 :=
  (addListener_replays_and_claims_backlog Nat (fun l _ => ⟨l == 0, none⟩)
      { listeners := [], requestID := 0, responseHandlers := [],
        unprocessedMessages := [[Arg.val (some 5)]], hasBackend := true }
      "x" 0).2.2
    [Arg.val (some 5)] (by decide) (by decide) "y" 1

/-- Witness for C8: a first request whose send throws error 9 rolls the
pending table back to empty, keeps the incremented counter, and rejects with
the thrown error. -/
theorem sendRequest_throw_witness :
    sendRequest (transportInitial Nat true) (some 1) (some 9) =
      ({ transportInitial Nat true with requestID := 1 },
        .rejected (.thrown 9), [.assigned 1]) :=
  sendRequest_throw_rolls_back Nat (transportInitial Nat true) (some 1) 9 rfl
    (by decide)

/-- Witness for C10: after registering listener 5 twice for `"x"` on a fresh
Transport, it is stored once and one `emit` invokes it once. -/
theorem addListener_twice_witness :
    (listenersFor (addListener (fun _ _ => ⟨true, none⟩ : Env Nat)
        (addListener (fun _ _ => ⟨true, none⟩ : Env Nat)
          (transportInitial Nat true) "x" 5).1 "x" 5).1 "x").count 5 = 1 :=
  (addListener_twice_dispatches_once Nat (fun _ _ => ⟨true, none⟩)
    (transportInitial Nat true) "x" 5 [] (by decide)).2.1

/-- Witness for the amended C4: a Request (id 7, payload 5) received by a
fresh Transport with no listeners is backlogged, with an empty trace. -/
theorem unhandled_request_witness :
    onMessageReceived (fun _ _ => ⟨false, none⟩ : Env Nat)
        (transportInitial Nat true)
        { type := .request, data := some 5, id := some 7 } =
      ({ transportInitial Nat true with
          unprocessedMessages := [[Arg.val (some 5), Arg.responder (some 7)]] },
        []) :=
  (unhandled_request_backlogged_and_replayable Nat (fun _ _ => ⟨false, none⟩)
    (transportInitial Nat true) (some 5) (some 7) rfl).1

end Transport

/-! ### Lemmas about the Postis channel primitive. -/

namespace Postis

variable {α : Type}

theorem invocationsP_append (tr1 tr2 : List (PEv α)) :
    invocationsP (tr1 ++ tr2) = invocationsP tr1 ++ invocationsP tr2 :=
  List.filterMap_append ..

theorem postedP_append (tr1 tr2 : List (PEv α)) :
    postedP (tr1 ++ tr2) = postedP tr1 ++ postedP tr2 :=
  List.filterMap_append ..

theorem send_ready (st : PostisState α) (o : SendOptions α) :
    (send st o).1.ready = st.ready := by
  unfold send
  split <;> rfl

theorem send_posts (st : PostisState α) (o : SendOptions α)
    (hr : st.ready = true) (ht : st.hasTargetWindow = true) :
    send st o = (st, [.posted { postis := true, scope := st.scope,
                                method := o.method, params := o.params }]) := by
  simp [send, hr, ht]

theorem send_buffers (st : PostisState α) (o : SendOptions α)
    (hr : st.ready = false) (hm : o.method ≠ readyMethod) :
    send st o = ({ st with sendBuffer := st.sendBuffer ++ [o] }, []) := by
  simp [send, hr, hm]

theorem flushSend_ready (l : List (SendOptions α)) :
    ∀ st : PostisState α, (flushSend st l).1.ready = st.ready := by
  induction l with
  | nil => intro st; rfl
  | cons o rest ih =>
    intro st
    simp only [flushSend]
    rw [ih]
    exact send_ready st o

theorem flushSend_posts (l : List (SendOptions α)) (st : PostisState α)
    (hr : st.ready = true) (ht : st.hasTargetWindow = true) :
    flushSend st l = (st, l.map fun o =>
      .posted { postis := true, scope := st.scope, method := o.method,
                params := o.params }) := by
  induction l with
  | nil => rfl
  | cons o rest ih =>
    simp only [flushSend]
    rw [send_posts st o hr ht, ih]
    rfl

theorem invocationsP_send (st : PostisState α) (o : SendOptions α) :
    invocationsP (send st o).2 = [] := by
  unfold send
  split <;> simp [invocationsP]

theorem invocationsP_flushSend (l : List (SendOptions α)) :
    ∀ st : PostisState α, invocationsP (flushSend st l).2 = [] := by
  induction l with
  | nil => intro st; rfl
  | cons o rest ih =>
    intro st
    simp only [flushSend, invocationsP_append, invocationsP_send, ih]
    rfl

theorem invocationsP_readyListener [DecidableEq α] (st : PostisState α)
    (p : Option α) : invocationsP (readyListener st p).2 = [] := by
  simp only [readyListener]
  split
  · simp [invocationsP_flushSend]
  · exact invocationsP_send ..

theorem invocationsP_applyListener [DecidableEq α] (st : PostisState α)
    (l : Nat) (p : Option α) :
    invocationsP (applyListener st l p).2 = [(l, p)] := by
  simp only [applyListener]
  split
  · have hc : invocationsP (PEv.invoked l p :: (readyListener st p).2) =
        (l, p) :: invocationsP (readyListener st p).2 := rfl
    simp [hc, invocationsP_readyListener]
  · rfl

theorem dispatchAll_invocations [DecidableEq α] (p : Option α) (ls : List Nat) :
    ∀ st : PostisState α,
      invocationsP (dispatchAll p st ls).2 = ls.map fun l => (l, p) := by
  induction ls with
  | nil => intro st; rfl
  | cons l rest ih =>
    intro st
    simp only [dispatchAll, invocationsP_append, invocationsP_applyListener, ih]
    rfl

theorem readyListener_ready [DecidableEq α] (st : PostisState α) (p : Option α)
    (h : st.ready = true) : (readyListener st p).1.ready = true := by
  simp only [readyListener]
  split
  · simp [flushSend_ready]
  · rw [send_ready]
    exact h

theorem applyListener_ready [DecidableEq α] (st : PostisState α) (l : Nat)
    (p : Option α) (h : st.ready = true) :
    (applyListener st l p).1.ready = true := by
  simp only [applyListener]
  split
  · simpa using readyListener_ready st p h
  · exact h

theorem dispatchAll_ready [DecidableEq α] (p : Option α) (ls : List Nat) :
    ∀ st : PostisState α, st.ready = true → (dispatchAll p st ls).1.ready = true := by
  induction ls with
  | nil => intro st h; exact h
  | cons l rest ih =>
    intro st h
    simp only [dispatchAll]
    exact ih _ (applyListener_ready st l p h)

theorem replayToOne_ready [DecidableEq α] (l : Nat) (buf : List (Option α)) :
    ∀ st : PostisState α, st.ready = true → (replayToOne l st buf).1.ready = true := by
  induction buf with
  | nil => intro st h; exact h
  | cons x xs ih =>
    intro st h
    simp only [replayToOne]
    exact ih _ (applyListener_ready st l x h)

theorem replayNested_ready [DecidableEq α] (buf : List (Option α)) (ls : List Nat) :
    ∀ st : PostisState α, st.ready = true → (replayNested buf st ls).1.ready = true := by
  induction ls with
  | nil => intro st h; exact h
  | cons l rest ih =>
    intro st h
    simp only [replayNested]
    exact ih _ (replayToOne_ready l buf st h)

theorem handleData_ready [DecidableEq α] (st : PostisState α)
    (pl : Option (MessageData α)) (h : st.ready = true) :
    (handleData st pl).1.ready = true := by
  cases pl with
  | none => exact h
  | some d =>
    by_cases hg : (d.postis && decide (d.scope = st.scope)) = true
    · cases hls : lookupRec st.listeners d.method with
      | none => simpa [handleData, hg, hls] using h
      | some ls =>
        rw [show handleData st (some d) = dispatchAll d.params st ls from by
          simp [handleData, hg, hls]]
        exact dispatchAll_ready d.params ls st h
    · simpa [handleData, hg] using h

theorem handleMessage_ready [DecidableEq α] (st : PostisState α)
    (ev : PMessageEvent α) (h : st.ready = true) :
    (handleMessage st ev).1.ready = true := by
  unfold handleMessage
  cases hev : ev.payload with
  | malformed => exact h
  | parsed pl =>
    cases hao : st.allowedOrigin with
    | none => exact handleData_ready st pl h
    | some ao =>
      by_cases ho : ev.origin ≠ ao
      · simpa [ho] using h
      · simpa [ho] using handleData_ready st pl h

theorem listen_ready [DecidableEq α] (st : PostisState α) (m : String) (l : Nat)
    (h : st.ready = true) : (listen st m l).1.ready = true := by
  unfold listen
  cases hb : lookupRec
      ({ st with listeners := listenersAdd st.listeners m l } : PostisState α).listenBuffer m with
  | none => simpa [hb] using h
  | some buf =>
    simp only [hb]
    exact replayNested_ready buf _ _ h

/-- C3.  While the liveness flag is `false`, every `send` whose method is not
the reserved ready-probe method appends its message to the FIFO send buffer
and nothing is posted; and when the flag flips to `true` (the readiness
listener receiving its own token) the buffered messages are posted in their
original arrival order, each exactly once, and the buffer is cleared. -/
theorem send_buffered_fifo_and_flushed (α : Type) [DecidableEq α] :
    (∀ (st : PostisState α) (l : List (SendOptions α)),
        st.ready = false → (∀ o ∈ l, o.method ≠ readyMethod) →
        runP st (l.map POp.sendOp) =
          ({ st with sendBuffer := st.sendBuffer ++ l }, [])) ∧
    (∀ st : PostisState α, st.ready = false → st.hasTargetWindow = true →
        readyListener st (some st.readyCheckID) =
          ({ st with intervalActive := false, ready := true, sendBuffer := [] },
            st.sendBuffer.map fun o =>
              .posted { postis := true, scope := st.scope, method := o.method,
                        params := o.params })) := by
  constructor
  · intro st l
    induction l generalizing st with
    | nil =>
      intro _ _
      simp [runP]
    | cons o rest ih =>
      intro hr hm
      simp only [List.map_cons, runP, stepP]
      rw [send_buffers st o hr (hm o (by simp))]
      rw [ih { st with sendBuffer := st.sendBuffer ++ [o] } hr
        (fun o ho => hm o (List.mem_cons_of_mem _ ho))]
      simp
  · intro st hr ht
    simp [readyListener, flushSend_posts st.sendBuffer
      { st with intervalActive := false, ready := true } rfl ht]

/-- Counterexample to C5 as stated: a fresh Postis instance (scope `"s"`,
probe token `0`) that receives the echo of its own ready probe transitions to
Confirmed (`_ready = true`), but a subsequent `destroy()` call sets `_ready`
back to `false` — so over sequences of operations that include `destroy` the
Confirmed state is not terminal for the instance's lifetime. -/
theorem confirmed_reverts_on_destroy :
    (runP (postisInitial Nat "s" none 0 true)
        [POp.recv { origin := "o", payload := .parsed (some
          { postis := true, scope := "s", method := readyMethod,
            params := some 0 }) }]).1.ready = true ∧
      (runP (postisInitial Nat "s" none 0 true)
        [POp.recv { origin := "o", payload := .parsed (some
          { postis := true, scope := "s", method := readyMethod,
            params := some 0 }) },
         POp.destroyOp]).1.ready = false := by
  constructor
  · rfl
  · rfl

/-- C5 (amended).  Once the readiness state has transitioned from Unconfirmed
to Confirmed, it never reverts to Unconfirmed under any sequence of `send`,
`listen` and inbound-message operations; only `destroy` (which resets
`_ready` to `false`, line 226) reverts it. -/
theorem confirmed_persists_without_destroy (α : Type) [DecidableEq α]
    (st : PostisState α) (ops : List (POp α)) (h : st.ready = true)
    (hops : ∀ op ∈ ops, op ≠ POp.destroyOp) :
    (runP st ops).1.ready = true := by
  induction ops generalizing st with
  | nil => exact h
  | cons op rest ih =>
    simp only [runP]
    refine ih _ ?_ fun op2 hop2 => hops op2 (List.mem_cons_of_mem _ hop2)
    cases op with
    | sendOp o =>
      rw [show stepP st (POp.sendOp o) = send st o from rfl, send_ready]
      exact h
    | listenOp m l => exact listen_ready st m l h
    | recv ev =>
      rw [show stepP st (POp.recv ev) =
          (if st.listenerAttached then handleMessage st ev else (st, [])) from rfl]
      by_cases ha : st.listenerAttached = true
      · rw [ha]
        simpa using handleMessage_ready st ev h
      · simp only [Bool.not_eq_true] at ha
        rw [ha]
        simpa using h
    | destroyOp => exact absurd rfl (hops _ (List.mem_cons_self ..))

/-- Witness for the amended C5: a Confirmed instance stays Confirmed across a
send and a listen. -/
theorem confirmed_persists_witness :
    (runP { postisInitial Nat "s" none 0 true with ready := true }
        [POp.sendOp { method := "m", params := some 1 },
         POp.listenOp "x" 1]).1.ready = true :=
  confirmed_persists_without_destroy Nat
    { postisInitial Nat "s" none 0 true with ready := true }
    [POp.sendOp { method := "m", params := some 1 }, POp.listenOp "x" 1]
    rfl (by decide)

/-- Witness for C3: on a fresh (unconfirmed) instance a non-probe send is
buffered with nothing posted, and the readiness flip posts the buffered
message and clears the buffer. -/
theorem send_buffered_witness :
    runP (postisInitial Nat "s" none 0 true)
        ([{ method := "m", params := some 1 }].map POp.sendOp) =
      ({ postisInitial Nat "s" none 0 true with
          sendBuffer := [{ method := "m", params := some 1 }] }, []) ∧
    readyListener
        { postisInitial Nat "s" none 0 true with
          sendBuffer := [{ method := "m", params := some 1 }] } (some 0) =
      ({ postisInitial Nat "s" none 0 true with
          intervalActive := false, ready := true, sendBuffer := [] },
        [.posted { postis := true, scope := "s", method := "m",
                   params := some 1 }]) :=
  ⟨(send_buffered_fifo_and_flushed Nat).1 (postisInitial Nat "s" none 0 true)
      [{ method := "m", params := some 1 }] rfl (by decide),
    (send_buffered_fifo_and_flushed Nat).2
      { postisInitial Nat "s" none 0 true with
        sendBuffer := [{ method := "m", params := some 1 }] } rfl rfl⟩

/-- The origin gate of `handleMessage` (line 142) passes when no allow-list is
set or when the sender's origin equals it. -/
theorem handleMessage_originOk [DecidableEq α] (st : PostisState α) (o : String)
    (pl : Option (MessageData α))
    (h : st.allowedOrigin = none ∨ st.allowedOrigin = some o) :
    handleMessage st { origin := o, payload := .parsed pl } = handleData st pl := by
  unfold handleMessage
  rcases h with h | h <;> simp [h]

/-- C9.  The inbound message handler is a total function (it never throws):
an unparseable raw payload — `safeJsonParse` throwing, swallowed at lines
136–140 — invokes no listener and changes no state; a parsed message is also
dropped with no state change when the origin allow-list is set and the
sender's origin differs, or when the parsed data is falsy, or the `postis`
marker is not `true`, or the `scope` differs; otherwise, with at least one
listener registered for the method, all of them are invoked synchronously in
registration order with the parsed `params`; with none, `params` is buffered
under that method. -/
theorem handleMessage_total_dispatch_spec (α : Type) [DecidableEq α]
    (st : PostisState α) :
    (∀ o : String,
        handleMessage st { origin := o, payload := .malformed } = (st, [])) ∧
      (∀ (ao o : String) (pl : Option (MessageData α)),
        st.allowedOrigin = some ao → o ≠ ao →
        handleMessage st { origin := o, payload := .parsed pl } = (st, [])) ∧
      (∀ o : String, st.allowedOrigin = none ∨ st.allowedOrigin = some o →
        handleMessage st { origin := o, payload := .parsed none } = (st, [])) ∧
      (∀ (o : String) (d : MessageData α),
        st.allowedOrigin = none ∨ st.allowedOrigin = some o →
        (d.postis = false ∨ d.scope ≠ st.scope) →
        handleMessage st { origin := o, payload := .parsed (some d) } = (st, [])) ∧
      (∀ (o : String) (d : MessageData α) (ls : List Nat),
        st.allowedOrigin = none ∨ st.allowedOrigin = some o →
        d.postis = true → d.scope = st.scope →
        lookupRec st.listeners d.method = some ls →
        invocationsP (handleMessage st
            { origin := o, payload := .parsed (some d) }).2 =
          ls.map fun l => (l, d.params)) ∧
      (∀ (o : String) (d : MessageData α),
        st.allowedOrigin = none ∨ st.allowedOrigin = some o →
        d.postis = true → d.scope = st.scope →
        lookupRec st.listeners d.method = none →
        handleMessage st { origin := o, payload := .parsed (some d) } =
          ({ st with listenBuffer := bufferAdd st.listenBuffer d.method d.params },
            [])) := by
  refine ⟨fun o => rfl, ?_, ?_, ?_, ?_, ?_⟩
  · intro ao o pl hao hno
    unfold handleMessage
    simp [hao, hno]
  · intro o h
    rw [handleMessage_originOk st o none h]
    rfl
  · intro o d h hd
    rw [handleMessage_originOk st o (some d) h]
    rcases hd with hd | hd <;> simp [handleData, hd]
  · intro o d ls h hp hs hls
    rw [handleMessage_originOk st o (some d) h]
    rw [show handleData st (some d) = dispatchAll d.params st ls from by
      simp [handleData, hp, hs, hls]]
    exact dispatchAll_invocations d.params ls st
  · intro o d h hp hs hls
    rw [handleMessage_originOk st o (some d) h]
    simp [handleData, hp, hs, hls]

/-- Witness for C9: a malformed payload is a no-op on a fresh instance, and a
well-formed message for method `"m"` with one registered listener (id 1)
invokes exactly that listener with the parsed params. -/
theorem handleMessage_dispatch_witness :
    handleMessage (postisInitial Nat "s" none 0 true)
        { origin := "o", payload := .malformed } =
      (postisInitial Nat "s" none 0 true, []) ∧
    invocationsP (handleMessage
        { postisInitial Nat "s" none 0 true with
          listeners := [(readyMethod, [0]), ("m", [1])] }
        { origin := "o", payload := .parsed (some
          { postis := true, scope := "s", method := "m",
            params := some 4 }) }).2 = [(1, some 4)] :=
  ⟨(handleMessage_total_dispatch_spec Nat (postisInitial Nat "s" none 0 true)).1 "o",
    (handleMessage_total_dispatch_spec Nat
        { postisInitial Nat "s" none 0 true with
          listeners := [(readyMethod, [0]), ("m", [1])] }).2.2.2.2.1
      "o" { postis := true, scope := "s", method := "m", params := some 4 }
      [1] (Or.inl rfl) rfl rfl (by decide)⟩

end Postis

end JsUtils
